import Mathlib

/-!
Verification development for the istio-csr repository.

Part 1: the request authentication/authorization pipeline of `pkg/server`
(`identitiesMatch` and `Server.authRequest`).  The implementation file of
these two functions is not part of the source tree here; only their test
file `pkg/server/auth_test.go` is.  They are therefore modelled from the
specification (§4.1, §4.2) and validated below against every test case of
`TestIdentitiesMatch` and `TestAuthRequest`.

Part 2: the namespace / config-object reconciliation controllers of
`pkg/controller/namespace.go`, which contains two concatenated variants of
the controller (one whose enforcer carries a literal `data` map, one whose
enforcer carries a `rootCA` getter).  Both are embedded faithfully.

Part 3: the duration clamping of the issuance orchestrator, modelled from
the specification (§4.3 step 2); the source tree only carries the flag
declaration for `MaximumClientCertificateDuration` in
`cmd/app/options/options.go`.
-/

/-- Modelled from the spec: the result of the Authenticator Adapter
(`Authenticate(ctx) -> (identities, error)` per §6); the adapter either
fails with an error or returns the caller's proven identity list.
The implementation (`pkg/server`) is not under the source tree. -/
inductive AuthResult where
  | err (msg : String)
  | ok (identities : List String)
deriving DecidableEq

/-- Modelled from the spec: the fields of a decoded certificate-signing
request that the Request Authorizer inspects (§3 SigningRequestPayload,
§4.2 steps 4-5).  URIs are represented by their string rendering. -/
structure DecodedCSR where
  dnsNames : List String
  ipAddresses : List String
  emailAddresses : List String
  commonName : String
  uris : List String
deriving DecidableEq

/-- Modelled from the spec: `identitiesMatch(claimed, proven)` (§4.1)
returns true iff the two collections, treated as sets (duplicates and
order ignored), are exactly equal.  The implementation (`pkg/server`) is
not under the source tree; only its test `TestIdentitiesMatch` is, and the
model is validated against every row of that test below. -/
def identitiesMatch (aList : List String) (bURL : List String) : Bool :=
  aList.all (fun a => bURL.contains a) && bURL.all (fun b => aList.contains b)

/-- Modelled from the spec: `Server.authRequest(ctx, csrPEM) ->
(identities, ok)` (§4.2).  The authenticator call is represented by its
result, and the payload by `none` when it fails to decode as a CSR and
`some csr` when it decodes.  The implementation (`pkg/server`) is not
under the source tree; only its test `TestAuthRequest` is, and the model
is validated against every row of that test below. -/
def authRequest (auth : AuthResult) (payload : Option DecodedCSR) : String × Bool :=
  match auth with
  | AuthResult.err _ => ("", false)
  | AuthResult.ok ids =>
    if ids.isEmpty then ("", false)
    else
      let identities := String.intercalate "," ids
      match payload with
      | none => (identities, false)
      | some csr =>
        if !csr.dnsNames.isEmpty || !csr.ipAddresses.isEmpty ||
            !csr.emailAddresses.isEmpty || csr.commonName != "" then
          (identities, false)
        else if !identitiesMatch ids csr.uris then
          (identities, false)
        else
          (identities, true)

/-- A well-formed CSR carrying only URI SAN identities, as produced by
`gen.CSR(gen.SetCSRIdentities(ids))` in the tests. -/
def csrWithIdentities (ids : List String) : DecodedCSR :=
  ⟨[], [], [], "", ids⟩

-- Validation against TestIdentitiesMatch (pkg/server/auth_test.go:15-80).
example : identitiesMatch [] [] = true := by decide
example : identitiesMatch ["spiffee://foo.bar"] [] = false := by decide
example : identitiesMatch [] ["spiffe://foo.bar"] = false := by decide
example : identitiesMatch ["spiffe://foo.bar"] ["spiffe://foo.bar"] = true := by decide
example : identitiesMatch ["spiffe://123.456"] ["spiffe://foo.bar"] = false := by decide
example : identitiesMatch ["spiffe://123.456", "spiffe://foo.bar"]
    ["spiffe://123.456", "spiffe://foo.bar"] = true := by decide
example : identitiesMatch ["spiffe://123.456", "spiffe://foo.bar"]
    ["spiffe://foo.bar", "spiffe://123.456"] = true := by decide
example : identitiesMatch ["spiffe://123.456", "spiffe://foo.bar"]
    ["spiffe://123.456", "spiffe://bar.foo"] = false := by decide

-- Validation against TestAuthRequest (pkg/server/auth_test.go:110-239).
example : authRequest (AuthResult.err "an error") none = ("", false) := by decide
example : authRequest (AuthResult.ok []) none = ("", false) := by decide
example : authRequest (AuthResult.ok ["spiffe://foo", "spiffe://bar"]) none
    = ("spiffe://foo,spiffe://bar", false) := by decide
example : authRequest (AuthResult.ok ["spiffe://foo", "spiffe://bar"])
    (some ⟨["example.com", "jetstack.io"], [], [], "", ["spiffe://foo", "spiffe://bar"]⟩)
    = ("spiffe://foo,spiffe://bar", false) := by decide
example : authRequest (AuthResult.ok ["spiffe://foo", "spiffe://bar"])
    (some ⟨[], ["8.8.8.8"], [], "", ["spiffe://foo", "spiffe://bar"]⟩)
    = ("spiffe://foo,spiffe://bar", false) := by decide
example : authRequest (AuthResult.ok ["spiffe://foo", "spiffe://bar"])
    (some ⟨[], [], [], "jetstack.io", ["spiffe://foo", "spiffe://bar"]⟩)
    = ("spiffe://foo,spiffe://bar", false) := by decide
example : authRequest (AuthResult.ok ["spiffe://foo", "spiffe://bar"])
    (some ⟨[], [], ["joshua.vanleeuwen@jetstack.io"], "", ["spiffe://foo", "spiffe://bar"]⟩)
    = ("spiffe://foo,spiffe://bar", false) := by decide
example : authRequest (AuthResult.ok ["spiffe://foo", "spiffe://bar"])
    (some (csrWithIdentities ["spiffe://josh", "spiffe://bar"]))
    = ("spiffe://foo,spiffe://bar", false) := by decide
example : authRequest (AuthResult.ok ["spiffe://foo", "spiffe://bar"])
    (some (csrWithIdentities ["spiffe://bar"]))
    = ("spiffe://foo,spiffe://bar", false) := by decide
example : authRequest (AuthResult.ok ["spiffe://foo", "spiffe://bar"])
    (some (csrWithIdentities ["spiffe://foo", "spiffe://bar", "spiffe://joshua.vanleeuwen"]))
    = ("spiffe://foo,spiffe://bar", false) := by decide
example : authRequest (AuthResult.ok ["spiffe://foo", "spiffe://bar"])
    (some (csrWithIdentities ["spiffe://foo", "spiffe://bar"]))
    = ("spiffe://foo,spiffe://bar", true) := by decide
example : authRequest (AuthResult.ok ["spiffe://foo"])
    (some (csrWithIdentities ["spiffe://foo"]))
    = ("spiffe://foo", true) := by decide

/-!
Part 2: embedding of `pkg/controller/namespace.go`.

The file concatenates two variants of the controller.  Variant 1
(`NewCARootController`) carries an enforcer with a literal
`data map[string]string`; variant 2 (`AddCARootController`) carries an
enforcer with a `rootCA caGetter` and builds the single-entry data map
`{"root-cert.pem": rootCA}` on each convergence.  Go `map[string]string`
values are embedded as association lists, the Kubernetes client as an
explicit store of ConfigMaps plus an injected-get-error oracle, and each
run records the trace of store operations it performs.
-/

/-- `types.NamespacedName`: the name/namespace key of a ConfigMap. -/
structure NN where
  name : String
  nspace : String
deriving DecidableEq

/-- A Go `map[string]string`, embedded as an association list (a Go map
has no duplicate keys; where that matters a `Nodup` hypothesis appears). -/
abbrev SMap : Type := List (String × String)

/-- Lookup in a `map[string]string`: `v, ok := m[k]`. -/
def smapFind : SMap → String → Option String
  | [], _ => none
  | (k, v) :: rest, key => if k = key then some v else smapFind rest key

/-- Assignment into a `map[string]string`: `m[k] = v` (a nil map and an
empty map behave identically once embedded as lists, so the Go code's lazy
`make` before first insert needs no separate representation). -/
def smapInsert : SMap → String → String → SMap
  | [], key, v => [(key, v)]
  | (k, w) :: rest, key, v =>
    if k = key then (key, v) :: rest else (k, w) :: smapInsert rest key v

/-- `corev1.ConfigMap`: the metadata and fields the controller touches. -/
structure ConfigMap where
  name : String
  nspace : String
  labels : SMap
  data : SMap
deriving DecidableEq

/-- One operation issued against the Kubernetes API for ConfigMaps.  The
embedding records every call the controller makes; `delete` is included so
that its absence from every trace is a meaningful statement. -/
inductive Op where
  | get (nn : NN)
  | create (nn : NN) (cm : ConfigMap)
  | update (nn : NN) (cm : ConfigMap)
  | delete (nn : NN)
deriving DecidableEq

/-- Whether an operation writes (create or update) — or deletes. -/
def Op.isWrite : Op → Bool
  | Op.create _ _ => true
  | Op.update _ _ => true
  | _ => false

def Op.isDelete : Op → Bool
  | Op.delete _ => true
  | _ => false

/-- Lookup in the store's object list. -/
def objFind : List (NN × ConfigMap) → NN → Option ConfigMap
  | [], _ => none
  | (k, cm) :: rest, key => if k = key then some cm else objFind rest key

/-- Upsert into the store's object list. -/
def objPut : List (NN × ConfigMap) → NN → ConfigMap → List (NN × ConfigMap)
  | [], key, cm => [(key, cm)]
  | (k, c) :: rest, key, cm =>
    if k = key then (key, cm) :: rest else (k, c) :: objPut rest key cm

/-- The ConfigMap side of the Kubernetes API: the stored objects plus an
oracle injecting non-not-found `Get` failures (`client.Get` may fail with
an error other than `apierrors.IsNotFound`). -/
structure Store where
  objs : List (NN × ConfigMap)
  getErr : NN → Option String

/-- Outcome of `client.Get` on a ConfigMap key: the object, a not-found
error, or another error. -/
inductive GetOutcome where
  | found (cm : ConfigMap)
  | notFound
  | failed (msg : String)
deriving DecidableEq

def storeGet (st : Store) (nn : NN) : GetOutcome :=
  match st.getErr nn with
  | some e => GetOutcome.failed e
  | none =>
    match objFind st.objs nn with
    | some cm => GetOutcome.found cm
    | none => GetOutcome.notFound

def storeCreate (st : Store) (nn : NN) (cm : ConfigMap) : Store :=
  ⟨objPut st.objs nn cm, st.getErr⟩

def storeUpdate (st : Store) (nn : NN) (cm : ConfigMap) : Store :=
  ⟨objPut st.objs nn cm, st.getErr⟩

/-- `IstioConfigLabelKey = "istio.io/config"`. -/
def IstioConfigLabelKey : String := "istio.io/config"

/-- The label check of both enforcer variants:
`val, ok := cm.Labels[IstioConfigLabelKey]; !ok || val != "true"`. -/
def labelBad (labels : SMap) : Bool :=
  match smapFind labels IstioConfigLabelKey with
  | some val => val != "true"
  | none => true

/-- The data loop of variant 1's enforcer:
`for k, v := range e.data { if kv, ok := cm.Data[k]; !ok || v != kv
{ cm.Data[k] = v; notMatch = true } }`, threading `cm` and `notMatch`. -/
def applyData : ConfigMap → SMap → Bool → ConfigMap × Bool
  | cm, [], notMatch => (cm, notMatch)
  | cm, (k, v) :: rest, notMatch =>
    match smapFind cm.data k with
    | some kv =>
      if v ≠ kv then
        applyData ⟨cm.name, cm.nspace, cm.labels, smapInsert cm.data k v⟩ rest true
      else
        applyData cm rest notMatch
    | none =>
      applyData ⟨cm.name, cm.nspace, cm.labels, smapInsert cm.data k v⟩ rest true

/-- Variant 1's `(e *enforcer) configmap` (namespace.go:181-241): ensure
the namespace's ConfigMap exists with the enforcer's `data` entries and
the istio config label.  Returns the Go error (as `Except`), the store
after the call, and the trace of ConfigMap API operations performed. -/
def enforcerConfigmap1 (data : SMap) (configMapName : String) (nspace : String)
    (st : Store) : Except String Unit × Store × List Op :=
  let nn : NN := ⟨configMapName, nspace⟩
  match storeGet st nn with
  | GetOutcome.notFound =>
    let cm : ConfigMap := ⟨configMapName, nspace, [(IstioConfigLabelKey, "true")], data⟩
    (Except.ok (), storeCreate st nn cm, [Op.get nn, Op.create nn cm])
  | GetOutcome.failed e =>
    (Except.error ("failed to get: " ++ e), st, [Op.get nn])
  | GetOutcome.found cm =>
    let stepped := applyData cm data false
    let cm1 := stepped.1
    let notMatch := stepped.2 || labelBad cm1.labels
    if notMatch then
      let cm2 : ConfigMap :=
        ⟨cm1.name, cm1.nspace, smapInsert cm1.labels IstioConfigLabelKey "true", cm1.data⟩
      (Except.ok (), storeUpdate st nn cm2, [Op.get nn, Op.update nn cm2])
    else
      (Except.ok (), st, [Op.get nn])

/-- Variant 2's `(e *enforcer) configmap` (namespace.go:395-461): as
variant 1, but the desired data is the single entry
`{"root-cert.pem": fmt.Sprintf("%s", e.rootCA())}` built from the getter
on each call, and the data check is written out for that one key.
`rootCA` is the string the getter returns. -/
def enforcerConfigmap2 (rootCA : String) (configMapName : String) (nspace : String)
    (st : Store) : Except String Unit × Store × List Op :=
  let nn : NN := ⟨configMapName, nspace⟩
  let rootCAConfigData : SMap := [("root-cert.pem", rootCA)]
  match storeGet st nn with
  | GetOutcome.notFound =>
    let cm : ConfigMap := ⟨configMapName, nspace, [(IstioConfigLabelKey, "true")], rootCAConfigData⟩
    (Except.ok (), storeCreate st nn cm, [Op.get nn, Op.create nn cm])
  | GetOutcome.failed e =>
    (Except.error ("failed to get: " ++ e), st, [Op.get nn])
  | GetOutcome.found cm =>
    let stepped : ConfigMap × Bool :=
      match smapFind cm.data "root-cert.pem" with
      | some d =>
        if d ≠ rootCA then
          (⟨cm.name, cm.nspace, cm.labels, smapInsert cm.data "root-cert.pem" rootCA⟩, true)
        else
          (cm, false)
      | none =>
        (⟨cm.name, cm.nspace, cm.labels, smapInsert cm.data "root-cert.pem" rootCA⟩, true)
    let cm1 := stepped.1
    let notMatch := stepped.2 || labelBad cm1.labels
    if notMatch then
      let cm2 : ConfigMap :=
        ⟨cm1.name, cm1.nspace, smapInsert cm1.labels IstioConfigLabelKey "true", cm1.data⟩
      (Except.ok (), storeUpdate st nn cm2, [Op.get nn, Op.update nn cm2])
    else
      (Except.ok (), st, [Op.get nn])

/-- `corev1.Namespace` phase is a string; the code compares it against
`corev1.NamespaceTerminating = "Terminating"`.  Outcome of `client.Get` on
the Namespace named in the request. -/
inductive NsGetOutcome where
  | found (phase : String)
  | notFound
  | failed (msg : String)
deriving DecidableEq

/-- Variant 1's `(n *namespace) Reconcile` (namespace.go:153-177):
a not-found namespace and a terminating namespace are ignored without
touching the enforcer; any other get error is returned; otherwise the
enforcer converges the namespace.  `nsGet` is the result of the namespace
read for the request. -/
def namespaceReconcile1 (data : SMap) (configMapName : String)
    (nsGet : NsGetOutcome) (reqName : String) (st : Store) :
    Except String Unit × Store × List Op :=
  match nsGet with
  | NsGetOutcome.notFound => (Except.ok (), st, [])
  | NsGetOutcome.failed e => (Except.error ("failed to get: " ++ e), st, [])
  | NsGetOutcome.found phase =>
    if phase = "Terminating" then (Except.ok (), st, [])
    else enforcerConfigmap1 data configMapName reqName st

/-- Variant 2's `(n *namespace) Reconcile` (namespace.go:365-391): same
control flow as variant 1's, delegating to variant 2's enforcer. -/
def namespaceReconcile2 (rootCA : String) (configMapName : String)
    (nsGet : NsGetOutcome) (reqName : String) (st : Store) :
    Except String Unit × Store × List Op :=
  match nsGet with
  | NsGetOutcome.notFound => (Except.ok (), st, [])
  | NsGetOutcome.failed e => (Except.error ("failed to get: " ++ e), st, [])
  | NsGetOutcome.found phase =>
    if phase = "Terminating" then (Except.ok (), st, [])
    else enforcerConfigmap2 rootCA configMapName reqName st

/-- Variant 1's `(c *configmap) Reconcile` (namespace.go:134-148): gets
the event's ConfigMap first (propagating only non-not-found errors) and
then lets the enforcer converge the event's namespace. -/
def configmapReconcile1 (data : SMap) (configMapName : String) (req : NN)
    (st : Store) : Except String Unit × Store × List Op :=
  match storeGet st req with
  | GetOutcome.failed e =>
    (Except.error ("failed to get: " ++ e), st, [Op.get req])
  | _ =>
    let r := enforcerConfigmap1 data configMapName req.nspace st
    (r.1, r.2.1, Op.get req :: r.2.2)

/-- Variant 2's `(c *configmap) Reconcile` (namespace.go:354-360): the
enforcer converges the event's namespace directly. -/
def configmapReconcile2 (rootCA : String) (configMapName : String) (req : NN)
    (st : Store) : Except String Unit × Store × List Op :=
  enforcerConfigmap2 rootCA configMapName req.nspace st

/-- Number of writes (creates plus updates) in a trace. -/
def writeCount (ops : List Op) : Nat :=
  (ops.filter Op.isWrite).length

/-!
Theorems.  Helper lemmas first, then one theorem per claim (with a
witness where the theorem carries hypotheses).
-/

lemma bool_eq_of_iff {a b : Bool} (h : a = true ↔ b = true) : a = b := by
  cases a <;> cases b <;> simp_all

/-- Characterization of `identitiesMatch`: true exactly when the two
lists have the same members. -/
lemma identitiesMatch_iff (a b : List String) :
    identitiesMatch a b = true ↔ ∀ x, x ∈ a ↔ x ∈ b := by
  simp only [identitiesMatch, Bool.and_eq_true, List.all_eq_true, List.contains, List.elem_iff]
  constructor
  · rintro ⟨h₁, h₂⟩ x
    exact ⟨fun hx => h₁ x hx, fun hx => h₂ x hx⟩
  · intro h
    exact ⟨fun x hx => (h x).mp hx, fun x hx => (h x).mpr hx⟩

/-- C2: `identitiesMatch(A,B)` is true iff A and B are equal as sets —
duplicates and order ignored, both-empty matches; it is symmetric,
invariant under permuting or duplicating entries of either input, and
false on strict subset/superset relationships. -/
theorem identitiesMatch_is_set_equality :
    (∀ a b : List String, identitiesMatch a b = true ↔ ∀ x, x ∈ a ↔ x ∈ b) ∧
    (∀ a b : List String, identitiesMatch a b = identitiesMatch b a) ∧
    (∀ a a' b : List String, a.Perm a' → identitiesMatch a b = identitiesMatch a' b) ∧
    (∀ a b b' : List String, b.Perm b' → identitiesMatch a b = identitiesMatch a b') ∧
    (∀ (x : String) (a b : List String),
      identitiesMatch (x :: x :: a) b = identitiesMatch (x :: a) b) ∧
    (∀ (x : String) (a b : List String),
      identitiesMatch a (x :: x :: b) = identitiesMatch a (x :: b)) ∧
    identitiesMatch [] [] = true ∧
    (∀ a b : List String, (∀ x ∈ a, x ∈ b) → (∃ x ∈ b, x ∉ a) →
      identitiesMatch a b = false) := by
  refine ⟨identitiesMatch_iff, ?_, ?_, ?_, ?_, ?_, by decide, ?_⟩
  · intro a b
    apply bool_eq_of_iff
    rw [identitiesMatch_iff, identitiesMatch_iff]
    constructor <;> intro h x <;> exact (h x).symm
  · intro a a' b hperm
    apply bool_eq_of_iff
    rw [identitiesMatch_iff, identitiesMatch_iff]
    constructor <;> intro h x
    · rw [← hperm.mem_iff]; exact h x
    · rw [hperm.mem_iff]; exact h x
  · intro a b b' hperm
    apply bool_eq_of_iff
    rw [identitiesMatch_iff, identitiesMatch_iff]
    constructor <;> intro h x
    · rw [← hperm.mem_iff]; exact h x
    · rw [hperm.mem_iff]; exact h x
  · intro x a b
    apply bool_eq_of_iff
    rw [identitiesMatch_iff, identitiesMatch_iff]
    constructor <;> intro h y <;>
      simpa [List.mem_cons, or_assoc, or_self_left] using h y
  · intro x a b
    apply bool_eq_of_iff
    rw [identitiesMatch_iff, identitiesMatch_iff]
    constructor <;> intro h y <;>
      simpa [List.mem_cons, or_assoc, or_self_left] using h y
  · intro a b hsub hstrict
    rcases hstrict with ⟨x, hxb, hxa⟩
    by_contra hne
    have htrue : identitiesMatch a b = true := by
      cases hmatch : identitiesMatch a b
      · exact absurd hmatch hne
      · rfl
    exact hxa (((identitiesMatch_iff a b).mp htrue x).mpr hxb)

/-- Witness for C2: the permutation-invariance conjunct at a concrete
swapped pair of inputs, with the permutation hypothesis discharged. -/
theorem identitiesMatch_is_set_equality_witness :
    identitiesMatch ["spiffe://foo", "spiffe://bar"] ["spiffe://bar"]
      = identitiesMatch ["spiffe://bar", "spiffe://foo"] ["spiffe://bar"] :=
  identitiesMatch_is_set_equality.2.2.1 ["spiffe://foo", "spiffe://bar"]
    ["spiffe://bar", "spiffe://foo"] ["spiffe://bar"]
    (List.Perm.swap "spiffe://bar" "spiffe://foo" [])

/-- C1: a decoded request with any populated DNS-name, IP-address,
email-address, or subject-common-name field is rejected (`ok = false`),
for every authenticated identity list — in particular even when the URI
SAN identities equal the authenticated identity set. -/
theorem authRequest_rejects_nonuri_fields (ids : List String) (csr : DecodedCSR)
    (hbad : csr.dnsNames ≠ [] ∨ csr.ipAddresses ≠ [] ∨
      csr.emailAddresses ≠ [] ∨ csr.commonName ≠ "") :
    (authRequest (AuthResult.ok ids) (some csr)).2 = false := by
  by_cases hids : ids.isEmpty
  · simp [authRequest, hids]
  · have hcond : (!csr.dnsNames.isEmpty || !csr.ipAddresses.isEmpty ||
        !csr.emailAddresses.isEmpty || csr.commonName != "") = true := by
      rcases hbad with h | h | h | h <;>
        simp [List.isEmpty_iff, h, bne_iff_ne]
    simp [authRequest, hids, hcond]

/-- Witness for C1: the authenticated identities and the URI SANs agree
exactly, yet a populated DNS-name field forces rejection. -/
theorem authRequest_rejects_nonuri_fields_witness :
    ((["example.com"] : List String) ≠ [] ∨
      (([] : List String) ≠ []) ∨ (([] : List String) ≠ []) ∨ ("" : String) ≠ "") ∧
    (authRequest (AuthResult.ok ["spiffe://foo", "spiffe://bar"])
      (some ⟨["example.com"], [], [], "", ["spiffe://foo", "spiffe://bar"]⟩)).2 = false :=
  ⟨Or.inl (by decide),
    authRequest_rejects_nonuri_fields ["spiffe://foo", "spiffe://bar"]
      ⟨["example.com"], [], [], "", ["spiffe://foo", "spiffe://bar"]⟩ (Or.inl (by decide))⟩

/-- C3: an authenticator failure, or a success with an empty identity
list, yields `("", false)` for every payload — the payload is never
consulted and both cases are indistinguishable. -/
theorem authRequest_auth_failure_short_circuits (a : AuthResult)
    (p : Option DecodedCSR)
    (h : (∃ e, a = AuthResult.err e) ∨ a = AuthResult.ok []) :
    authRequest a p = ("", false) := by
  rcases h with ⟨e, rfl⟩ | rfl <;> simp [authRequest]

/-- Witness for C3: the empty-identity outcome at a concrete decodable
payload. -/
theorem authRequest_auth_failure_short_circuits_witness :
    ((∃ e, AuthResult.ok [] = AuthResult.err e) ∨
      AuthResult.ok ([] : List String) = AuthResult.ok []) ∧
    authRequest (AuthResult.ok [])
      (some (csrWithIdentities ["spiffe://foo"])) = ("", false) :=
  ⟨Or.inr rfl,
    authRequest_auth_failure_short_circuits (AuthResult.ok [])
      (some (csrWithIdentities ["spiffe://foo"])) (Or.inr rfl)⟩

/-- C4: whenever authentication succeeds with a non-empty identity list,
the first component of `authRequest`'s result is the comma-join of the
proven identities, for every payload — also on decode failure, disallowed
fields, or identity mismatch. -/
theorem authRequest_returns_joined_identities (ids : List String)
    (p : Option DecodedCSR) (h : ids ≠ []) :
    (authRequest (AuthResult.ok ids) p).1 = String.intercalate "," ids := by
  have hids : ids.isEmpty = false := by
    simpa [List.isEmpty_iff] using h
  cases p with
  | none => simp [authRequest, hids]
  | some csr =>
    simp only [authRequest, hids, Bool.false_eq_true, if_false]
    split
    · rfl
    · split <;> rfl

/-- Witness for C4: a failing request (mismatched identities) still
returns the joined identity string. -/
theorem authRequest_returns_joined_identities_witness :
    (["spiffe://foo", "spiffe://bar"] : List String) ≠ [] ∧
    (authRequest (AuthResult.ok ["spiffe://foo", "spiffe://bar"])
      (some (csrWithIdentities ["spiffe://josh"]))).1
      = String.intercalate "," ["spiffe://foo", "spiffe://bar"] :=
  ⟨by decide,
    authRequest_returns_joined_identities ["spiffe://foo", "spiffe://bar"]
      (some (csrWithIdentities ["spiffe://josh"])) (by decide)⟩

/-!
Helper lemmas for the store and map embedding.
-/

lemma smapFind_insert_self (m : SMap) (k v : String) :
    smapFind (smapInsert m k v) k = some v := by
  induction m with
  | nil => simp [smapInsert, smapFind]
  | cons hd tl ih =>
    obtain ⟨k₀, v₀⟩ := hd
    by_cases h : k₀ = k <;> simp [smapInsert, smapFind, h, ih]

lemma smapFind_insert_ne (m : SMap) (k k' v : String) (h : k ≠ k') :
    smapFind (smapInsert m k v) k' = smapFind m k' := by
  induction m with
  | nil => simp [smapInsert, smapFind, h]
  | cons hd tl ih =>
    obtain ⟨k₀, v₀⟩ := hd
    by_cases h₀ : k₀ = k
    · subst h₀
      simp [smapInsert, smapFind, h]
    · simp [smapInsert, smapFind, h₀, ih]

lemma smapFind_eq_none_of_not_mem (m : SMap) (k : String)
    (h : k ∉ m.map Prod.fst) :
    smapFind m k = none := by
  induction m with
  | nil => rfl
  | cons hd tl ih =>
    obtain ⟨k₀, v₀⟩ := hd
    simp only [List.map_cons, List.mem_cons] at h
    push_neg at h
    have hne : ¬ k₀ = k := fun he => h.1 he.symm
    simp [smapFind, hne, ih h.2]

lemma objFind_put_self (l : List (NN × ConfigMap)) (nn : NN) (cm : ConfigMap) :
    objFind (objPut l nn cm) nn = some cm := by
  induction l with
  | nil => simp [objPut, objFind]
  | cons hd tl ih =>
    obtain ⟨k₀, c₀⟩ := hd
    by_cases h : k₀ = nn <;> simp [objPut, objFind, h, ih]

lemma storeGet_found_iff (st : Store) (nn : NN) (cm : ConfigMap) :
    storeGet st nn = GetOutcome.found cm ↔
      st.getErr nn = none ∧ objFind st.objs nn = some cm := by
  unfold storeGet
  cases h : st.getErr nn
  · cases h₂ : objFind st.objs nn <;> simp [h₂]
  · simp

lemma storeGet_notFound_iff (st : Store) (nn : NN) :
    storeGet st nn = GetOutcome.notFound ↔
      st.getErr nn = none ∧ objFind st.objs nn = none := by
  unfold storeGet
  cases h : st.getErr nn
  · cases h₂ : objFind st.objs nn <;> simp [h₂]
  · simp

lemma applyData_meta (cm : ConfigMap) (data : SMap) (b : Bool) :
    (applyData cm data b).1.name = cm.name ∧
    (applyData cm data b).1.nspace = cm.nspace ∧
    (applyData cm data b).1.labels = cm.labels := by
  induction data generalizing cm b with
  | nil => exact ⟨rfl, rfl, rfl⟩
  | cons hd tl ih =>
    obtain ⟨k, v⟩ := hd
    unfold applyData
    cases h : smapFind cm.data k with
    | none => exact ih _ _
    | some kv =>
      by_cases hv : v = kv
      · simp only [hv, ne_eq, not_true_eq_false, if_false]
        exact ih _ _
      · simp only [ne_eq, hv, not_false_eq_true, if_true]
        exact ih _ _

lemma applyData_flag_mono (cm : ConfigMap) (data : SMap) :
    (applyData cm data true).2 = true := by
  induction data generalizing cm with
  | nil => rfl
  | cons hd tl ih =>
    obtain ⟨k, v⟩ := hd
    unfold applyData
    cases h : smapFind cm.data k with
    | none => exact ih _
    | some kv =>
      by_cases hv : v = kv
      · simp only [hv, ne_eq, not_true_eq_false, if_false]
        exact ih _
      · simp only [ne_eq, hv, not_false_eq_true, if_true]
        exact ih _

lemma applyData_id_of_flag_false (cm : ConfigMap) (data : SMap)
    (h : (applyData cm data false).2 = false) :
    (applyData cm data false).1 = cm := by
  induction data generalizing cm with
  | nil => rfl
  | cons hd tl ih =>
    obtain ⟨k, v⟩ := hd
    unfold applyData at h ⊢
    cases hf : smapFind cm.data k with
    | none =>
      rw [hf] at h
      exact absurd h (by simp [applyData_flag_mono])
    | some kv =>
      rw [hf] at h
      by_cases hv : v = kv
      · simp only [hv, ne_eq, not_true_eq_false, if_false] at h ⊢
        exact ih _ h
      · simp only [ne_eq, hv, not_false_eq_true, if_true] at h
        exact absurd h (by simp [applyData_flag_mono])

/-- The data loop realizes the desired entries and leaves every other key
alone (for a duplicate-free desired map, as a Go map is). -/
lemma applyData_find (cm : ConfigMap) (data : SMap) (b : Bool) (k : String)
    (hnd : (data.map Prod.fst).Nodup) :
    smapFind (applyData cm data b).1.data k =
      match smapFind data k with
      | some v => some v
      | none => smapFind cm.data k := by
  induction data generalizing cm b with
  | nil => rfl
  | cons hd tl ih =>
    obtain ⟨k₀, v₀⟩ := hd
    simp only [List.map_cons, List.nodup_cons] at hnd
    obtain ⟨hk₀, hndtl⟩ := hnd
    have htl : smapFind tl k₀ = none := smapFind_eq_none_of_not_mem tl k₀ hk₀
    unfold applyData
    cases hf : smapFind cm.data k₀ with
    | none =>
      rw [ih _ _ hndtl]
      by_cases hkk : k₀ = k
      · subst hkk
        simp [smapFind, htl, smapFind_insert_self]
      · simp [smapFind, hkk, smapFind_insert_ne _ _ _ _ hkk]
    | some kv =>
      by_cases hv : v₀ = kv
      · simp only [hv, ne_eq, not_true_eq_false, if_false]
        rw [ih _ _ hndtl]
        by_cases hkk : k₀ = k
        · subst hkk
          simp [smapFind, htl, hf, hv]
        · simp [smapFind, hkk]
      · simp only [ne_eq, hv, not_false_eq_true, if_true]
        rw [ih _ _ hndtl]
        by_cases hkk : k₀ = k
        · subst hkk
          simp [smapFind, htl, smapFind_insert_self]
        · simp [smapFind, hkk, smapFind_insert_ne _ _ _ _ hkk]

lemma labelBad_false_iff (labels : SMap) :
    labelBad labels = false ↔ smapFind labels IstioConfigLabelKey = some "true" := by
  unfold labelBad
  cases h : smapFind labels IstioConfigLabelKey with
  | none => simp
  | some val => simp [bne_iff_ne]

lemma storeGet_failed_iff (st : Store) (nn : NN) (e : String) :
    storeGet st nn = GetOutcome.failed e ↔ st.getErr nn = some e := by
  unfold storeGet
  cases h : st.getErr nn
  · cases h₂ : objFind st.objs nn <;> simp
  · simp

/-- The stored object is fully converged for variant 2's enforcer: the
trust-bundle entry holds `rootCA` and the istio config label is set. -/
def convergedCM (rootCA : String) (cm : ConfigMap) : Prop :=
  smapFind cm.data "root-cert.pem" = some rootCA ∧
  smapFind cm.labels IstioConfigLabelKey = some "true"


/-!
Per-branch evaluation lemmas for the two enforcer variants.
-/

lemma converge2_eq_notFound (rootCA cn ns : String) (st : Store)
    (hg : storeGet st ⟨cn, ns⟩ = GetOutcome.notFound) :
    enforcerConfigmap2 rootCA cn ns st =
      (Except.ok (),
       storeCreate st ⟨cn, ns⟩
         ⟨cn, ns, [(IstioConfigLabelKey, "true")], [("root-cert.pem", rootCA)]⟩,
       [Op.get ⟨cn, ns⟩,
        Op.create ⟨cn, ns⟩
          ⟨cn, ns, [(IstioConfigLabelKey, "true")], [("root-cert.pem", rootCA)]⟩]) := by
  simp only [enforcerConfigmap2, hg]

lemma converge2_eq_failed (rootCA cn ns e : String) (st : Store)
    (hg : storeGet st ⟨cn, ns⟩ = GetOutcome.failed e) :
    enforcerConfigmap2 rootCA cn ns st =
      (Except.error ("failed to get: " ++ e), st, [Op.get ⟨cn, ns⟩]) := by
  simp only [enforcerConfigmap2, hg]

lemma converge2_eq_found_stale (rootCA cn ns d : String) (st : Store) (cm : ConfigMap)
    (hg : storeGet st ⟨cn, ns⟩ = GetOutcome.found cm)
    (hf : smapFind cm.data "root-cert.pem" = some d) (hd : d ≠ rootCA) :
    enforcerConfigmap2 rootCA cn ns st =
      (Except.ok (),
       storeUpdate st ⟨cn, ns⟩
         ⟨cm.name, cm.nspace, smapInsert cm.labels IstioConfigLabelKey "true",
          smapInsert cm.data "root-cert.pem" rootCA⟩,
       [Op.get ⟨cn, ns⟩,
        Op.update ⟨cn, ns⟩
          ⟨cm.name, cm.nspace, smapInsert cm.labels IstioConfigLabelKey "true",
           smapInsert cm.data "root-cert.pem" rootCA⟩]) := by
  simp [enforcerConfigmap2, hg, hf, hd]

lemma converge2_eq_found_missing (rootCA cn ns : String) (st : Store) (cm : ConfigMap)
    (hg : storeGet st ⟨cn, ns⟩ = GetOutcome.found cm)
    (hf : smapFind cm.data "root-cert.pem" = none) :
    enforcerConfigmap2 rootCA cn ns st =
      (Except.ok (),
       storeUpdate st ⟨cn, ns⟩
         ⟨cm.name, cm.nspace, smapInsert cm.labels IstioConfigLabelKey "true",
          smapInsert cm.data "root-cert.pem" rootCA⟩,
       [Op.get ⟨cn, ns⟩,
        Op.update ⟨cn, ns⟩
          ⟨cm.name, cm.nspace, smapInsert cm.labels IstioConfigLabelKey "true",
           smapInsert cm.data "root-cert.pem" rootCA⟩]) := by
  simp [enforcerConfigmap2, hg, hf]

lemma converge2_eq_found_fresh (rootCA cn ns : String) (st : Store) (cm : ConfigMap)
    (hg : storeGet st ⟨cn, ns⟩ = GetOutcome.found cm)
    (hf : smapFind cm.data "root-cert.pem" = some rootCA) :
    enforcerConfigmap2 rootCA cn ns st =
      if labelBad cm.labels then
        (Except.ok (),
         storeUpdate st ⟨cn, ns⟩
           ⟨cm.name, cm.nspace, smapInsert cm.labels IstioConfigLabelKey "true", cm.data⟩,
         [Op.get ⟨cn, ns⟩,
          Op.update ⟨cn, ns⟩
            ⟨cm.name, cm.nspace, smapInsert cm.labels IstioConfigLabelKey "true", cm.data⟩])
      else (Except.ok (), st, [Op.get ⟨cn, ns⟩]) := by
  simp [enforcerConfigmap2, hg, hf]

lemma converge1_eq_notFound (data : SMap) (cn ns : String) (st : Store)
    (hg : storeGet st ⟨cn, ns⟩ = GetOutcome.notFound) :
    enforcerConfigmap1 data cn ns st =
      (Except.ok (),
       storeCreate st ⟨cn, ns⟩ ⟨cn, ns, [(IstioConfigLabelKey, "true")], data⟩,
       [Op.get ⟨cn, ns⟩,
        Op.create ⟨cn, ns⟩ ⟨cn, ns, [(IstioConfigLabelKey, "true")], data⟩]) := by
  simp only [enforcerConfigmap1, hg]

lemma converge1_eq_failed (data : SMap) (cn ns e : String) (st : Store)
    (hg : storeGet st ⟨cn, ns⟩ = GetOutcome.failed e) :
    enforcerConfigmap1 data cn ns st =
      (Except.error ("failed to get: " ++ e), st, [Op.get ⟨cn, ns⟩]) := by
  simp only [enforcerConfigmap1, hg]

lemma converge1_eq_found (data : SMap) (cn ns : String) (st : Store) (cm : ConfigMap)
    (hg : storeGet st ⟨cn, ns⟩ = GetOutcome.found cm) :
    enforcerConfigmap1 data cn ns st =
      if ((applyData cm data false).2 || labelBad (applyData cm data false).1.labels) then
        (Except.ok (),
         storeUpdate st ⟨cn, ns⟩
           ⟨(applyData cm data false).1.name, (applyData cm data false).1.nspace,
            smapInsert (applyData cm data false).1.labels IstioConfigLabelKey "true",
            (applyData cm data false).1.data⟩,
         [Op.get ⟨cn, ns⟩,
          Op.update ⟨cn, ns⟩
            ⟨(applyData cm data false).1.name, (applyData cm data false).1.nspace,
             smapInsert (applyData cm data false).1.labels IstioConfigLabelKey "true",
             (applyData cm data false).1.data⟩])
      else (Except.ok (), st, [Op.get ⟨cn, ns⟩]) := by
  simp only [enforcerConfigmap1, hg]

lemma converge2_noop_of_converged (rootCA cn ns : String) (st : Store)
    (cm : ConfigMap) (hfound : storeGet st ⟨cn, ns⟩ = GetOutcome.found cm)
    (hconv : convergedCM rootCA cm) :
    enforcerConfigmap2 rootCA cn ns st = (Except.ok (), st, [Op.get ⟨cn, ns⟩]) := by
  obtain ⟨hdata, hlabel⟩ := hconv
  have hlb : labelBad cm.labels = false := (labelBad_false_iff _).mpr hlabel
  rw [converge2_eq_found_fresh rootCA cn ns st cm hfound hdata, hlb]
  simp

lemma converge2_post_converged (rootCA cn ns : String) (st : Store)
    (hne : st.getErr ⟨cn, ns⟩ = none) :
    ∃ cm', storeGet (enforcerConfigmap2 rootCA cn ns st).2.1 ⟨cn, ns⟩
        = GetOutcome.found cm' ∧ convergedCM rootCA cm' := by
  cases hg : storeGet st ⟨cn, ns⟩ with
  | notFound =>
    rw [converge2_eq_notFound rootCA cn ns st hg]
    refine ⟨⟨cn, ns, [(IstioConfigLabelKey, "true")], [("root-cert.pem", rootCA)]⟩, ?_, ?_, ?_⟩
    · exact (storeGet_found_iff _ _ _).mpr ⟨hne, objFind_put_self _ _ _⟩
    · simp [smapFind]
    · simp [smapFind]
  | failed e =>
    exact absurd ((storeGet_failed_iff _ _ _).mp hg) (by simp [hne])
  | found cm =>
    cases hf : smapFind cm.data "root-cert.pem" with
    | none =>
      rw [converge2_eq_found_missing rootCA cn ns st cm hg hf]
      refine ⟨⟨cm.name, cm.nspace, smapInsert cm.labels IstioConfigLabelKey "true",
        smapInsert cm.data "root-cert.pem" rootCA⟩, ?_, ?_, ?_⟩
      · exact (storeGet_found_iff _ _ _).mpr ⟨hne, objFind_put_self _ _ _⟩
      · exact smapFind_insert_self _ _ _
      · exact smapFind_insert_self _ _ _
    | some d =>
      by_cases hd : d = rootCA
      · rw [hd] at hf
        rw [converge2_eq_found_fresh rootCA cn ns st cm hg hf]
        by_cases hlb : labelBad cm.labels = true
        · rw [hlb]
          simp only [if_true]
          refine ⟨⟨cm.name, cm.nspace, smapInsert cm.labels IstioConfigLabelKey "true",
            cm.data⟩, ?_, ?_, ?_⟩
          · exact (storeGet_found_iff _ _ _).mpr ⟨hne, objFind_put_self _ _ _⟩
          · exact hf
          · exact smapFind_insert_self _ _ _
        · rw [Bool.not_eq_true] at hlb
          rw [hlb]
          simp only [Bool.false_eq_true, if_false]
          exact ⟨cm, hg, hf, (labelBad_false_iff _).mp hlb⟩
      · rw [converge2_eq_found_stale rootCA cn ns d st cm hg hf hd]
        refine ⟨⟨cm.name, cm.nspace, smapInsert cm.labels IstioConfigLabelKey "true",
          smapInsert cm.data "root-cert.pem" rootCA⟩, ?_, ?_, ?_⟩
        · exact (storeGet_found_iff _ _ _).mpr ⟨hne, objFind_put_self _ _ _⟩
        · exact smapFind_insert_self _ _ _
        · exact smapFind_insert_self _ _ _

/-- C10: for every store state and namespace, variant 1's enforcer
instantiated with the single-entry data map `{"root-cert.pem": rootCA}`
produces exactly the same error, store and operation trace (with the same
object contents) as variant 2's enforcer whose getter returns `rootCA`. -/
theorem enforcer_variants_equivalent (rootCA configMapName nspace : String)
    (st : Store) :
    enforcerConfigmap1 [("root-cert.pem", rootCA)] configMapName nspace st
      = enforcerConfigmap2 rootCA configMapName nspace st := by
  cases hg : storeGet st ⟨configMapName, nspace⟩ with
  | notFound =>
    rw [converge1_eq_notFound _ _ _ _ hg, converge2_eq_notFound _ _ _ _ hg]
  | failed e =>
    rw [converge1_eq_failed _ _ _ _ _ hg, converge2_eq_failed _ _ _ _ _ hg]
  | found cm =>
    rw [converge1_eq_found _ _ _ _ _ hg]
    cases hf : smapFind cm.data "root-cert.pem" with
    | none =>
      rw [converge2_eq_found_missing _ _ _ _ _ hg hf]
      simp [applyData, hf]
    | some d =>
      by_cases hd : d = rootCA
      · subst hd
        rw [converge2_eq_found_fresh _ _ _ _ _ hg hf]
        simp [applyData, hf]
      · have hd' : rootCA ≠ d := fun he => hd he.symm
        rw [converge2_eq_found_stale _ _ _ _ _ _ hg hf hd]
        simp [applyData, hf, hd']

lemma converge1_ops_no_delete (data : SMap) (cn ns : String) (st : Store) :
    ((enforcerConfigmap1 data cn ns st).2.2).all (fun o => !o.isDelete) = true := by
  cases hg : storeGet st ⟨cn, ns⟩ with
  | notFound => rw [converge1_eq_notFound _ _ _ _ hg]; rfl
  | failed e => rw [converge1_eq_failed _ _ _ _ _ hg]; rfl
  | found cm =>
    rw [converge1_eq_found _ _ _ _ _ hg]
    split <;> rfl

lemma converge2_ops_no_delete (rootCA cn ns : String) (st : Store) :
    ((enforcerConfigmap2 rootCA cn ns st).2.2).all (fun o => !o.isDelete) = true := by
  rw [← enforcer_variants_equivalent]
  exact converge1_ops_no_delete _ _ _ _

/-- C9: no reachable execution of either enforcer variant nor of any of
the four Reconcile entry points ever emits a delete operation on the
config object: every operation in every trace is a get, create or
update. -/
theorem controllers_never_delete (data : SMap)
    (rootCA configMapName reqName : String) (nsGet : NsGetOutcome) (req : NN)
    (st : Store) :
    ((enforcerConfigmap1 data configMapName reqName st).2.2).all
      (fun o => !o.isDelete) = true ∧
    ((enforcerConfigmap2 rootCA configMapName reqName st).2.2).all
      (fun o => !o.isDelete) = true ∧
    ((namespaceReconcile1 data configMapName nsGet reqName st).2.2).all
      (fun o => !o.isDelete) = true ∧
    ((namespaceReconcile2 rootCA configMapName nsGet reqName st).2.2).all
      (fun o => !o.isDelete) = true ∧
    ((configmapReconcile1 data configMapName req st).2.2).all
      (fun o => !o.isDelete) = true ∧
    ((configmapReconcile2 rootCA configMapName req st).2.2).all
      (fun o => !o.isDelete) = true := by
  refine ⟨converge1_ops_no_delete _ _ _ _, converge2_ops_no_delete _ _ _ _, ?_, ?_, ?_, ?_⟩
  · unfold namespaceReconcile1
    cases nsGet with
    | notFound => rfl
    | failed e => rfl
    | found phase =>
      by_cases hp : phase = "Terminating"
      · simp [hp]
      · simp only [hp, if_false]
        exact converge1_ops_no_delete _ _ _ _
  · unfold namespaceReconcile2
    cases nsGet with
    | notFound => rfl
    | failed e => rfl
    | found phase =>
      by_cases hp : phase = "Terminating"
      · simp [hp]
      · simp only [hp, if_false]
        exact converge2_ops_no_delete _ _ _ _
  · unfold configmapReconcile1
    cases hg : storeGet st req with
    | failed e => rfl
    | notFound =>
      simp only [List.all_cons, Bool.and_eq_true]
      exact ⟨rfl, converge1_ops_no_delete _ _ _ _⟩
    | found cm =>
      simp only [List.all_cons, Bool.and_eq_true]
      exact ⟨rfl, converge1_ops_no_delete _ _ _ _⟩
  · exact converge2_ops_no_delete _ _ _ _

/-- C7: both variants of the Namespace Reconciler succeed without
invoking the enforcer (no store operation, store unchanged) when the
namespace is not found or its phase is terminating; a non-not-found read
error is returned without invoking the enforcer; for any other phase the
call is exactly the enforcer invocation, so enforcer errors are returned
for requeue. -/
theorem namespace_reconcile_gating (data : SMap)
    (rootCA configMapName reqName : String) (st : Store) :
    (namespaceReconcile1 data configMapName NsGetOutcome.notFound reqName st
        = (Except.ok (), st, []) ∧
      namespaceReconcile2 rootCA configMapName NsGetOutcome.notFound reqName st
        = (Except.ok (), st, [])) ∧
    (namespaceReconcile1 data configMapName (NsGetOutcome.found "Terminating") reqName st
        = (Except.ok (), st, []) ∧
      namespaceReconcile2 rootCA configMapName (NsGetOutcome.found "Terminating") reqName st
        = (Except.ok (), st, [])) ∧
    (∀ e, namespaceReconcile1 data configMapName (NsGetOutcome.failed e) reqName st
        = (Except.error ("failed to get: " ++ e), st, []) ∧
      namespaceReconcile2 rootCA configMapName (NsGetOutcome.failed e) reqName st
        = (Except.error ("failed to get: " ++ e), st, [])) ∧
    (∀ phase, phase ≠ "Terminating" →
      namespaceReconcile1 data configMapName (NsGetOutcome.found phase) reqName st
        = enforcerConfigmap1 data configMapName reqName st ∧
      namespaceReconcile2 rootCA configMapName (NsGetOutcome.found phase) reqName st
        = enforcerConfigmap2 rootCA configMapName reqName st) := by
  refine ⟨⟨rfl, rfl⟩, ⟨by simp [namespaceReconcile1], by simp [namespaceReconcile2]⟩,
    fun e => ⟨rfl, rfl⟩, fun phase hp => ⟨?_, ?_⟩⟩
  · simp [namespaceReconcile1, hp]
  · simp [namespaceReconcile2, hp]

/-- Witness for C7: a concrete active namespace is converged by the
enforcer, at a concrete store. -/
theorem namespace_reconcile_gating_witness :
    namespaceReconcile1 [("root-cert.pem", "PEM")] "istio-ca-root-cert"
        (NsGetOutcome.found "Active") "default" ⟨[], fun _ => none⟩
      = enforcerConfigmap1 [("root-cert.pem", "PEM")] "istio-ca-root-cert" "default"
          ⟨[], fun _ => none⟩ ∧
    namespaceReconcile2 "PEM" "istio-ca-root-cert"
        (NsGetOutcome.found "Active") "default" ⟨[], fun _ => none⟩
      = enforcerConfigmap2 "PEM" "istio-ca-root-cert" "default" ⟨[], fun _ => none⟩ :=
  (namespace_reconcile_gating [("root-cert.pem", "PEM")] "PEM" "istio-ca-root-cert"
    "default" ⟨[], fun _ => none⟩).2.2.2 "Active" (by decide)

/-- C5 (amended): with no injected read error at the target key, variant
2's converge creates an absent object with the single required data entry
and the marker label in one write; a single call performs at most one
write, and a second call in succession with the same desired content
performs no create or update at all. -/
theorem converge_write_discipline (rootCA configMapName nspace : String)
    (st : Store) (hne : st.getErr ⟨configMapName, nspace⟩ = none) :
    (objFind st.objs ⟨configMapName, nspace⟩ = none →
      (enforcerConfigmap2 rootCA configMapName nspace st).2.2
        = [Op.get ⟨configMapName, nspace⟩,
           Op.create ⟨configMapName, nspace⟩
             ⟨configMapName, nspace, [(IstioConfigLabelKey, "true")],
              [("root-cert.pem", rootCA)]⟩]) ∧
    writeCount (enforcerConfigmap2 rootCA configMapName nspace st).2.2 ≤ 1 ∧
    writeCount (enforcerConfigmap2 rootCA configMapName nspace
      (enforcerConfigmap2 rootCA configMapName nspace st).2.1).2.2 = 0 := by
  refine ⟨?_, ?_, ?_⟩
  · intro habs
    rw [converge2_eq_notFound rootCA configMapName nspace st
      ((storeGet_notFound_iff _ _).mpr ⟨hne, habs⟩)]
  · cases hg : storeGet st ⟨configMapName, nspace⟩ with
    | notFound =>
      rw [converge2_eq_notFound _ _ _ _ hg]
      simp [writeCount, Op.isWrite]
    | failed e =>
      rw [converge2_eq_failed _ _ _ _ _ hg]
      simp [writeCount, Op.isWrite]
    | found cm =>
      cases hf : smapFind cm.data "root-cert.pem" with
      | none =>
        rw [converge2_eq_found_missing _ _ _ _ _ hg hf]
        simp [writeCount, Op.isWrite]
      | some d =>
        by_cases hd : d = rootCA
        · rw [hd] at hf
          rw [converge2_eq_found_fresh _ _ _ _ _ hg hf]
          cases hlb : labelBad cm.labels <;> simp [writeCount, Op.isWrite]
        · rw [converge2_eq_found_stale _ _ _ d _ _ hg hf hd]
          simp [writeCount, Op.isWrite]
  · obtain ⟨cm', hfound, hconv⟩ :=
      converge2_post_converged rootCA configMapName nspace st hne
    rw [converge2_noop_of_converged rootCA configMapName nspace _ cm' hfound hconv]
    rfl

/-- Witness for C5's theorem: the write discipline at a concrete empty
store, with the no-read-error hypothesis discharged. -/
theorem converge_write_discipline_witness :
    ((⟨[], fun _ => none⟩ : Store).getErr ⟨"istio-ca-root-cert", "default"⟩ = none) ∧
    (objFind (⟨[], fun _ => none⟩ : Store).objs ⟨"istio-ca-root-cert", "default"⟩ = none →
      (enforcerConfigmap2 "PEM" "istio-ca-root-cert" "default" ⟨[], fun _ => none⟩).2.2
        = [Op.get ⟨"istio-ca-root-cert", "default"⟩,
           Op.create ⟨"istio-ca-root-cert", "default"⟩
             ⟨"istio-ca-root-cert", "default", [(IstioConfigLabelKey, "true")],
              [("root-cert.pem", "PEM")]⟩]) ∧
    writeCount (enforcerConfigmap2 "PEM" "istio-ca-root-cert" "default"
      ⟨[], fun _ => none⟩).2.2 ≤ 1 ∧
    writeCount (enforcerConfigmap2 "PEM" "istio-ca-root-cert" "default"
      (enforcerConfigmap2 "PEM" "istio-ca-root-cert" "default"
        ⟨[], fun _ => none⟩).2.1).2.2 = 0 :=
  ⟨rfl, converge_write_discipline "PEM" "istio-ca-root-cert" "default"
    ⟨[], fun _ => none⟩ rfl⟩

/-- Counterexample for C5 as stated: starting from a store whose config
object already carries the desired data entry and the marker label, two
successive converge calls perform zero writes, not exactly one. -/
theorem converge_twice_not_always_one_write :
    ¬ (writeCount (enforcerConfigmap2 "PEM" "istio-ca-root-cert" "default"
        ⟨[(⟨"istio-ca-root-cert", "default"⟩,
           ⟨"istio-ca-root-cert", "default", [(IstioConfigLabelKey, "true")],
            [("root-cert.pem", "PEM")]⟩)], fun _ => none⟩).2.2 +
       writeCount (enforcerConfigmap2 "PEM" "istio-ca-root-cert" "default"
        (enforcerConfigmap2 "PEM" "istio-ca-root-cert" "default"
          ⟨[(⟨"istio-ca-root-cert", "default"⟩,
             ⟨"istio-ca-root-cert", "default", [(IstioConfigLabelKey, "true")],
              [("root-cert.pem", "PEM")]⟩)], fun _ => none⟩).2.1).2.2 = 1) := by
  decide

/-- C6: when the config object exists, variant 1's converge leaves every
data key not mentioned in the desired map unchanged (value included),
realizes every desired entry, sets the marker label, and touches no other
label. -/
theorem converge_merges_preserving_unrelated (data : SMap) (cn ns : String)
    (st : Store) (cm : ConfigMap)
    (hfound : storeGet st ⟨cn, ns⟩ = GetOutcome.found cm)
    (hnd : (data.map Prod.fst).Nodup) :
    ∃ cm', objFind (enforcerConfigmap1 data cn ns st).2.1.objs ⟨cn, ns⟩ = some cm' ∧
      (∀ k, smapFind data k = none → smapFind cm'.data k = smapFind cm.data k) ∧
      (∀ k v, smapFind data k = some v → smapFind cm'.data k = some v) ∧
      smapFind cm'.labels IstioConfigLabelKey = some "true" ∧
      (∀ lk, lk ≠ IstioConfigLabelKey → smapFind cm'.labels lk = smapFind cm.labels lk) := by
  rw [converge1_eq_found data cn ns st cm hfound]
  by_cases hnm : ((applyData cm data false).2 || labelBad (applyData cm data false).1.labels) = true
  · rw [hnm]
    simp only [if_true]
    refine ⟨⟨(applyData cm data false).1.name, (applyData cm data false).1.nspace,
      smapInsert (applyData cm data false).1.labels IstioConfigLabelKey "true",
      (applyData cm data false).1.data⟩, objFind_put_self _ _ _, ?_, ?_, ?_, ?_⟩
    · intro k hk
      have := applyData_find cm data false k hnd
      rw [hk] at this
      exact this
    · intro k v hk
      have := applyData_find cm data false k hnd
      rw [hk] at this
      exact this
    · exact smapFind_insert_self _ _ _
    · intro lk hlk
      have hlk' : IstioConfigLabelKey ≠ lk := fun he => hlk he.symm
      rw [smapFind_insert_ne _ _ _ _ hlk', (applyData_meta cm data false).2.2]
  · rw [Bool.not_eq_true] at hnm
    rw [hnm]
    simp only [Bool.false_eq_true, if_false]
    rw [Bool.or_eq_false_iff] at hnm
    obtain ⟨hflag, hlb⟩ := hnm
    have hid : (applyData cm data false).1 = cm := applyData_id_of_flag_false cm data hflag
    rw [hid] at hlb
    refine ⟨cm, ((storeGet_found_iff st ⟨cn, ns⟩ cm).mp hfound).2, fun k _ => rfl, ?_,
      (labelBad_false_iff _).mp hlb, fun lk _ => rfl⟩
    intro k v hk
    have := applyData_find cm data false k hnd
    rw [hk, hid] at this
    exact this

/-- Witness for C6: a concrete object with an unrelated data key and an
unrelated label survives convergence with both intact while the
trust-bundle entry is overwritten and the marker label is set. -/
theorem converge_merges_preserving_unrelated_witness :
    (storeGet ⟨[(⟨"istio-ca-root-cert", "default"⟩,
        ⟨"istio-ca-root-cert", "default", [("team", "infra")],
         [("other-key", "keep"), ("root-cert.pem", "OLD")]⟩)], fun _ => none⟩
        ⟨"istio-ca-root-cert", "default"⟩
      = GetOutcome.found
          ⟨"istio-ca-root-cert", "default", [("team", "infra")],
           [("other-key", "keep"), ("root-cert.pem", "OLD")]⟩) ∧
    (∃ cm', objFind (enforcerConfigmap1 [("root-cert.pem", "PEM")]
        "istio-ca-root-cert" "default"
        ⟨[(⟨"istio-ca-root-cert", "default"⟩,
           ⟨"istio-ca-root-cert", "default", [("team", "infra")],
            [("other-key", "keep"), ("root-cert.pem", "OLD")]⟩)],
         fun _ => none⟩).2.1.objs ⟨"istio-ca-root-cert", "default"⟩ = some cm' ∧
      (∀ k, smapFind [("root-cert.pem", "PEM")] k = none →
        smapFind cm'.data k
          = smapFind [("other-key", "keep"), ("root-cert.pem", "OLD")] k) ∧
      (∀ k v, smapFind [("root-cert.pem", "PEM")] k = some v →
        smapFind cm'.data k = some v) ∧
      smapFind cm'.labels IstioConfigLabelKey = some "true" ∧
      (∀ lk, lk ≠ IstioConfigLabelKey →
        smapFind cm'.labels lk = smapFind [("team", "infra")] lk)) :=
  ⟨by decide,
    converge_merges_preserving_unrelated [("root-cert.pem", "PEM")]
      "istio-ca-root-cert" "default"
      ⟨[(⟨"istio-ca-root-cert", "default"⟩,
         ⟨"istio-ca-root-cert", "default", [("team", "infra")],
          [("other-key", "keep"), ("root-cert.pem", "OLD")]⟩)], fun _ => none⟩
      ⟨"istio-ca-root-cert", "default", [("team", "infra")],
       [("other-key", "keep"), ("root-cert.pem", "OLD")]⟩
      (by decide) (by decide)⟩

/-!
Part 3: duration clamping of the issuance orchestrator, modelled from the
specification (§4.3 step 2); the source tree carries only the
`max-client-certificate-duration` flag declaration
(`cmd/app/options/options.go:194-197`, help text: "Will override with
this value if the requested duration is larger").
-/

/-- Modelled from the spec: the Issuance Orchestrator clamps the
requested validity duration to `MaximumClientCertificateDuration`
(durations as nonnegative nanosecond counts). -/
def clampDuration (requested maximum : Nat) : Nat :=
  if maximum < requested then maximum else requested

/-- Modelled from the spec: the duration-handling step of `issue` never
rejects a request because of its duration — it always proceeds with the
clamped value. -/
def issueValidityOutcome (requested maximum : Nat) : Except String Nat :=
  Except.ok (clampDuration requested maximum)

/-- C8: a requested duration exceeding the configured maximum is replaced
by that maximum and the request still succeeds; no duration is ever
rejected, and a non-exceeding duration passes through unchanged. -/
theorem issuance_clamps_duration (requested maximum : Nat) :
    (maximum < requested →
      issueValidityOutcome requested maximum = Except.ok maximum) ∧
    (∃ d, issueValidityOutcome requested maximum = Except.ok d ∧ d ≤ maximum ⊔ requested) ∧
    (requested ≤ maximum →
      issueValidityOutcome requested maximum = Except.ok requested) := by
  refine ⟨fun h => ?_, ⟨clampDuration requested maximum, rfl, ?_⟩, fun h => ?_⟩
  · simp [issueValidityOutcome, clampDuration, h]
  · unfold clampDuration
    split <;> simp
  · simp [issueValidityOutcome, clampDuration, Nat.not_lt.mpr h]

/-- Witness for C8: a 48-hour request against a 24-hour maximum is capped
to 24 hours and succeeds. -/
theorem issuance_clamps_duration_witness :
    24 < 48 ∧ issueValidityOutcome 48 24 = Except.ok 24 :=
  ⟨by decide, (issuance_clamps_duration 48 24).1 (by decide)⟩
